import Mathlib

/-!
Verification of the layout and binding-navigation subsystem described in
`slang-reflection-part1.h` .. `slang-reflection-part3.h`.

The repository is a design document: it declares the reflection API
(`LayoutResourceKind`, `TypeLayout`/`VarLayout` queries, parameter-group
layouts, binding ranges, descriptor sets, the `AppShaderCursor` sketch) and
documents the layout rules through worked examples.  Here we give a shallow
embedding: a small universe of shader types, the layout queries as executable
functions over that universe (one target dimension for Vulkan-style
`binding` accounting and one for D3D11-style register accounting, with the
legacy constant-buffer byte packing used by the documents' examples), and the
cursor/binding-range model from part 3.
-/

namespace SlangReflection

/-- The resource-kind enumeration, transcribed from `LayoutResourceKind` in
`slang-reflection-part2.h`. -/
inductive LayoutResourceKind where
  | Bytes
  | D3D_ConstantBuffer
  | D3D_ShaderResource
  | D3D_SamplerState
  | D3D_UnorderedAccess
  | VK_Binding
  | RegisterSpace
  | VK_SpecializationConstant
  | VK_PushConstantBuffer
  | VaryingInput
  | VaryingOutput
  | RT_RayPayload
  | RT_HitAttributes
  | RT_CallablePayload
  | RT_ShaderRecord
  | VK_SubpassInputAttachment
  | Metal_ArgumentBufferElement
  | Metal_Attribute
  | Metal_Payload
  | None
  | Mixed
deriving DecidableEq, Repr

/-- The concrete (non-pseudo) resource kinds: every member of the enumeration
except the pseudo-kinds `None` and `Mixed`. -/
def concreteKinds : List LayoutResourceKind :=
  [.Bytes, .D3D_ConstantBuffer, .D3D_ShaderResource, .D3D_SamplerState,
   .D3D_UnorderedAccess, .VK_Binding, .RegisterSpace, .VK_SpecializationConstant,
   .VK_PushConstantBuffer, .VaryingInput, .VaryingOutput, .RT_RayPayload,
   .RT_HitAttributes, .RT_CallablePayload, .RT_ShaderRecord,
   .VK_SubpassInputAttachment, .Metal_ArgumentBufferElement, .Metal_Attribute,
   .Metal_Payload]

/-- The GPU-API-facing binding-type enumeration from `slang-reflection-part3.h`
(the source lists `Unknown`, `Sampler`, `Texture`, `ConstantBuffer` and elides
further cases with `...`; we add the container/push-constant cases the
documents talk about). -/
inductive BindingType where
  | Unknown
  | Sampler
  | Texture
  | ConstantBuffer
  | ParameterBlock
  | PushConstant
deriving DecidableEq, Repr

/-- Modelled from the spec: the navigation error taxonomy (`NotAnAggregate`,
`NotAnArray`, index-out-of-range errors, ...).  The sketch code in
`slang-reflection-part3.h` explicitly elides error handling, so the error
names come from the specification's error-handling design. -/
inductive CursorError where
  | NotAnAggregate
  | NotAnArray
  | FieldIndexOutOfRange
  | ElementIndexOutOfRange
  | NotOrdinaryData
  | BindingRangeIndexOutOfRange
  | ResourceKindMismatch
deriving DecidableEq, Repr

/-- Modelled from the spec: the error reported when a single-kind convenience
accessor is invoked on a layout that does not consume exactly one bindable
kind. -/
inductive LayoutError where
  | AmbiguousResourceKind
deriving DecidableEq, Repr

/-- The compilation targets used by the documents' worked examples. -/
inductive Target where
  | vulkan
  | d3d11
deriving DecidableEq, Repr

mutual
/-- The universe of shader types appearing in the documents' examples:
scalars/vectors, textures and samplers, `struct`s, sized arrays, and the
parameter-group containers (`ConstantBuffer`, `ParameterBlock`, push-constant
buffers). -/
inductive Ty where
  | float
  | float3
  | texture2D
  | samplerState
  | structT (fields : Fields)
  | array (elem : Ty) (count : Nat)
  | constantBuffer (elem : Ty)
  | parameterBlock (elem : Ty)
  | pushConstantBuffer (elem : Ty)

/-- An ordered sequence of named fields of an aggregate type. -/
inductive Fields where
  | nil
  | cons (name : String) (ty : Ty) (rest : Fields)
end

/-- Number of fields of an aggregate. -/
def Fields.length : Fields → Nat
  | .nil => 0
  | .cons _ _ rest => 1 + rest.length

/-- The type of the field at a given index, if in range. -/
def Fields.tyAt? : Fields → Nat → Option Ty
  | .nil, _ => none
  | .cons _ t _, 0 => some t
  | .cons _ _ rest, i + 1 => rest.tyAt? i

/-- Round `n` up to the next multiple of `a` (for `a > 0`). -/
def roundUp (n a : Nat) : Nat :=
  if a = 0 then n else (n + a - 1) / a * a

/-- Modelled from the spec: byte alignment under the documented legacy
constant-buffer packing convention used by the examples in
`slang-reflection-part2.h` (scalars align to 4, aggregates start on a 16-byte
boundary; non-ordinary types occupy no bytes). -/
def alignB : Ty → Nat
  | .float => 4
  | .float3 => 4
  | .structT _ => 16
  | .array e _ => alignB e
  | _ => 1

mutual
/-- Modelled from the spec: byte size of a type under the legacy
constant-buffer packing rules documented through the examples in
`slang-reflection-part2.h` (a `float` takes 4 bytes, a `float3` 12 bytes,
resources and parameter groups take no bytes in their surroundings, a
`struct` packs its fields in order with each field aligned per `alignB`). -/
def tySizeB : Ty → Nat
  | .float => 4
  | .float3 => 12
  | .structT fs => fieldsEndB fs 0
  | .array e n => n * roundUp (tySizeB e) (alignB e)
  | _ => 0

/-- Byte offset just past the last field, starting from offset `off`. -/
def fieldsEndB : Fields → Nat → Nat
  | .nil, off => off
  | .cons _ t rest, off => fieldsEndB rest (roundUp off (alignB t) + tySizeB t)
end

/-- Byte stride: the size rounded up to a multiple of the alignment, as
defined in `slang-reflection-part2.h`. -/
def strideB (t : Ty) : Nat :=
  roundUp (tySizeB t) (alignB t)

/-- The resource kind consumed by a `ConstantBuffer` container on each
target: a `b` register on D3D11, a `binding` on Vulkan
(`slang-reflection-part2.h`). -/
def cbKind : Target → LayoutResourceKind
  | .vulkan => .VK_Binding
  | .d3d11 => .D3D_ConstantBuffer

/-- The resource kind consumed by a texture on each target
(`slang-reflection-part2.h`: a `t` register on D3D, a `binding` on Vulkan). -/
def texKind : Target → LayoutResourceKind
  | .vulkan => .VK_Binding
  | .d3d11 => .D3D_ShaderResource

/-- The resource kind consumed by a sampler on each target. -/
def samplerKind : Target → LayoutResourceKind
  | .vulkan => .VK_Binding
  | .d3d11 => .D3D_SamplerState

mutual
/-- Modelled from the spec: `TypeLayout::getSize(kind)` — the number of units
of resource kind `kind` a type consumes on a target, following the accounting
documented through the examples in `slang-reflection-part2.h`: a texture
consumes one register/`binding`; a `struct` sums its fields (bytes are packed
with alignment, binding-style kinds have alignment 1); a sized array consumes
`count` times its element; a `ConstantBuffer` consumes one unit for the
buffer itself plus whatever non-ordinary resources its element consumes (the
element's bytes live inside the buffer and are not visible outside); a
`ParameterBlock` consumes one register space / descriptor set; a
push-constant buffer consumes one push-constant unit. -/
def getSize (tgt : Target) : Ty → LayoutResourceKind → Nat
  | .float, k => if k = .Bytes then 4 else 0
  | .float3, k => if k = .Bytes then 12 else 0
  | .texture2D, k => if k = texKind tgt then 1 else 0
  | .samplerState, k => if k = samplerKind tgt then 1 else 0
  | .structT fs, k => if k = .Bytes then fieldsEndB fs 0 else fieldsSizeK tgt fs k
  | .array e n, k => if k = .Bytes then n * strideB e else n * getSize tgt e k
  | .constantBuffer e, k =>
      (if k = cbKind tgt then 1 else 0) +
        (if k = .Bytes then 0 else getSize tgt e k)
  | .parameterBlock _, k => if k = .RegisterSpace then 1 else 0
  | .pushConstantBuffer _, k => if k = .VK_PushConstantBuffer then 1 else 0

/-- Sum of the sizes of a field sequence for a binding-style resource kind. -/
def fieldsSizeK (tgt : Target) : Fields → LayoutResourceKind → Nat
  | .nil, _ => 0
  | .cons _ t rest, k => getSize tgt t k + fieldsSizeK tgt rest k
end

/-- `TypeLayout::getStride(kind)`: for `Bytes` the size rounded up to the
alignment; for binding-style kinds each unit is its own slot, so the stride
equals the size (`slang-reflection-part2.h`). -/
def getStride (tgt : Target) (t : Ty) (k : LayoutResourceKind) : Nat :=
  if k = .Bytes then strideB t else getSize tgt t k

/-- `TypeLayout::getConsumedResourceKinds()`: the resource kinds for which
`getSize` returns a non-zero value (`slang-reflection-part2.h`). -/
def getConsumedResourceKinds (tgt : Target) (t : Ty) : List LayoutResourceKind :=
  concreteKinds.filter (fun k => getSize tgt t k ≠ 0)

/-- `TypeLayout::getConsumedResourceKind()`: the single-kind convenience
query, computed from `getConsumedResourceKinds` exactly as documented in
`slang-reflection-part2.h`: an empty sequence gives `None`, a single-element
sequence gives that element, anything else gives `Mixed`. -/
def getConsumedResourceKind (tgt : Target) (t : Ty) : LayoutResourceKind :=
  match getConsumedResourceKinds tgt t with
  | [] => .None
  | [k] => k
  | _ => .Mixed

/-- `VarLayout`: a variable's type layout together with its per-kind offsets
relative to the immediately enclosing aggregate or parameter group. -/
structure VarLayout where
  tyl : Ty
  offset : LayoutResourceKind → Nat

/-- `VarLayout::getOffset(kind)`. -/
def VarLayout.getOffset (v : VarLayout) (k : LayoutResourceKind) : Nat :=
  v.offset k

/-- The offset (for resource kind `k`) of the field at index `i` of a field
sequence, accumulating from a running offset `off`: bytes are aligned per
`alignB`, binding-style kinds accumulate with alignment 1
(`slang-reflection-part2.h`'s worked examples). -/
def fieldOffset (tgt : Target) : Fields → LayoutResourceKind → Nat → Nat → Option Nat
  | .nil, _, _, _ => none
  | .cons _ t _, k, off, 0 =>
      some (if k = .Bytes then roundUp off (alignB t) else off)
  | .cons _ t rest, k, off, i + 1 =>
      fieldOffset tgt rest k
        (if k = .Bytes then roundUp off (alignB t) + tySizeB t
         else off + getSize tgt t k) i

/-- The type layout of a parameter-group *container* construct itself
(`ParameterGroupTypeLayout::getContainerVarLayout` in
`slang-reflection-part2.h`): the buffer/block with no payload, so it consumes
exactly the resources of the group construct (e.g. one `b` register or one
`binding` for a `ConstantBuffer`). -/
def containerTypeLayout : Ty → Option Ty
  | .constantBuffer _ => some (.constantBuffer (.structT .nil))
  | .parameterBlock _ => some (.parameterBlock (.structT .nil))
  | .pushConstantBuffer _ => some (.pushConstantBuffer (.structT .nil))
  | _ => none

/-- `ParameterGroupTypeLayout::getContainerVarLayout()`: the variable layout
of the group construct itself, placed at offset zero within the group. -/
def getContainerVarLayout (t : Ty) : Option VarLayout :=
  (containerTypeLayout t).map fun ct => ⟨ct, fun _ => 0⟩

/-- `ParameterGroupTypeLayout::getElementVarLayout()`: the variable layout of
the group's payload.  Modelled from the spec: for a `ConstantBuffer` the
element's binding-style resources start *after* the resources consumed by the
container itself (this is exactly the `binding=10` vs `binding=11` example in
`slang-reflection-part2.h`), while the element's bytes start at offset zero
inside the buffer. -/
def getElementVarLayout (tgt : Target) : Ty → Option VarLayout
  | .constantBuffer e =>
      some ⟨e, fun k =>
        if k = .Bytes then 0
        else getSize tgt (.constantBuffer (.structT .nil)) k⟩
  | .parameterBlock e => some ⟨e, fun _ => 0⟩
  | .pushConstantBuffer e => some ⟨e, fun _ => 0⟩
  | _ => none

/-- Modelled from the spec: the documented accumulation rule across a
parameter-group boundary — the group's assigned offset is the base, the
element `VarLayout`'s offset is added next, and accumulation resumes with the
offsets of fields nested inside the element. -/
def accumulateGroupOffset (tgt : Target) (group : Ty) (groupOffset : Nat)
    (k : LayoutResourceKind) (innerOffset : Nat) : Option Nat :=
  (getElementVarLayout tgt group).map fun evl =>
    groupOffset + evl.getOffset k + innerOffset

/-- The naive (incorrect) accumulation that simply adds a nested field's
offset to the group's own offset, ignoring the element `VarLayout`
(`slang-reflection-part2.h` calls out that this yields the wrong answer). -/
def accumulateNaive (groupOffset innerOffset : Nat) : Nat :=
  groupOffset + innerOffset

/-- Modelled from the spec: accumulating per-kind offsets along a chain of
field indices from a root type layout down to a leaf, the way
`slang-reflection-part2.h` instructs applications to compute a leaf
variable's offset. -/
def accumulateOffsets (tgt : Target) : Ty → List Nat → LayoutResourceKind → Option Nat
  | _, [], _ => some 0
  | .structT fs, i :: rest, k => do
      let off ← fieldOffset tgt fs k 0 i
      let fty ← fs.tyAt? i
      let inner ← accumulateOffsets tgt fty rest k
      pure (off + inner)
  | _, _ :: _, _ => none

/-- `struct A { float x; Texture2D t; float y; }` from the accumulation
example in `slang-reflection-part2.h`. -/
def fieldsA : Fields :=
  .cons "x" .float (.cons "t" .texture2D (.cons "y" .float .nil))

/-- The struct type `A` of the parameter-group accumulation example. -/
def tyA : Ty := .structT fieldsA

/-- `struct A { float x; }` from the nested-struct offset example. -/
def tyA2 : Ty := .structT (.cons "x" .float .nil)

/-- `struct B { float y; A a; }` from the nested-struct offset example. -/
def tyB : Ty := .structT (.cons "y" .float (.cons "a" tyA2 .nil))

/-- `struct C { float z; B b; }` from the nested-struct offset example. -/
def tyC : Ty := .structT (.cons "z" .float (.cons "b" tyB .nil))

/-- C1: for `struct A { float x; Texture2D t; float y; }` laid out as a
constant buffer on a binding-oriented target, the field `t` has local offset
zero `binding`s, yet when the group's container is assigned bindable unit 10
the parameter-group accumulation rule assigns `t` unit 11 (the container
itself keeping unit 10); in general, accumulating through the group boundary
adds the element `VarLayout`'s one-unit offset, so container and element
offsets are non-additive: the naive sum is always wrong. -/
theorem parameterGroup_accumulation_nonadditive :
    fieldOffset .vulkan fieldsA .VK_Binding 0 1 = some 0 ∧
    accumulateGroupOffset .vulkan (.constantBuffer tyA) 10 .VK_Binding 0 = some 11 ∧
    (getContainerVarLayout (.constantBuffer tyA)).map
      (fun v => 10 + v.getOffset .VK_Binding) = some 10 ∧
    ∀ e base inner,
      accumulateGroupOffset .vulkan (.constantBuffer e) base .VK_Binding inner =
        some (base + 1 + inner) ∧
      base + 1 + inner ≠ accumulateNaive base inner := by
  refine ⟨by decide, by decide, by decide, fun e base inner => ⟨?_, ?_⟩⟩
  · simp only [accumulateGroupOffset, getElementVarLayout, VarLayout.getOffset,
      Option.map_some]
    norm_num [getSize, fieldsSizeK, cbKind]
    decide
  · simp only [accumulateNaive]
    omega

/-- C2: for `struct A { float x; }`, `struct B { float y; A a; }`,
`struct C { float z; B b; }` laid out as a constant buffer under traditional
D3D11 constant-buffer packing, accumulating the `Bytes` offsets of the
`VarLayout`s along the chain from the buffer element down to the leaf
`b.a.x` yields an absolute byte offset of 32, while the `Bytes` offset of
`x` within `A`'s own layout is 0. -/
theorem nested_struct_byte_offset_accumulation :
    (getElementVarLayout .d3d11 (.constantBuffer tyC)).map
      (fun v => v.getOffset .Bytes) = some 0 ∧
    accumulateOffsets .d3d11 tyC [1, 1, 0] .Bytes = some 32 ∧
    fieldOffset .d3d11 (.cons "x" .float .nil) .Bytes 0 0 = some 0 := by
  refine ⟨by decide, ?_, by decide⟩
  decide

/-- Helper: every member of `concreteKinds` is a concrete kind, i.e. neither
of the pseudo-kinds `None` and `Mixed`. -/
theorem mem_concreteKinds_ne (k : LayoutResourceKind) (h : k ∈ concreteKinds) :
    k ≠ .None ∧ k ≠ .Mixed := by
  constructor <;> rintro rfl <;> revert h <;> decide

/-- C6: for every type layout, the single-kind query
`getConsumedResourceKind` is determined by the sequence
`getConsumedResourceKinds`: it is `None` exactly when the sequence is empty,
the unique element exactly when the sequence is a singleton, and `Mixed`
exactly when the sequence has at least two elements; the pseudo-kinds `None`
and `Mixed` are never themselves elements of the sequence. -/
theorem consumed_kind_determined_by_consumed_kinds (tgt : Target) (t : Ty) :
    (getConsumedResourceKind tgt t = .None ↔ getConsumedResourceKinds tgt t = []) ∧
    (∀ k, getConsumedResourceKinds tgt t = [k] ↔
      (getConsumedResourceKind tgt t = k ∧ k ≠ .None ∧ k ≠ .Mixed)) ∧
    (getConsumedResourceKind tgt t = .Mixed ↔
      2 ≤ (getConsumedResourceKinds tgt t).length) ∧
    LayoutResourceKind.None ∉ getConsumedResourceKinds tgt t ∧
    LayoutResourceKind.Mixed ∉ getConsumedResourceKinds tgt t := by
  have hconc : ∀ k, k ∈ getConsumedResourceKinds tgt t → k ≠ .None ∧ k ≠ .Mixed := by
    intro k hk
    exact mem_concreteKinds_ne k (List.mem_filter.mp hk).1
  have hN : LayoutResourceKind.None ∉ getConsumedResourceKinds tgt t := by
    intro h
    exact (hconc _ h).1 rfl
  have hM : LayoutResourceKind.Mixed ∉ getConsumedResourceKinds tgt t := by
    intro h
    exact (hconc _ h).2 rfl
  rcases h : getConsumedResourceKinds tgt t with _ | ⟨a, _ | ⟨b, l⟩⟩
  · have hk : getConsumedResourceKind tgt t = .None := by
      unfold getConsumedResourceKind
      rw [h]
    refine ⟨by simp [hk], ?_, by simp [hk], by simp, by simp⟩
    intro k
    rw [hk]
    constructor
    · intro hx
      exact absurd hx (by simp)
    · rintro ⟨rfl, hkN, _⟩
      exact absurd rfl hkN
  · have ha := hconc a (by rw [h]; exact List.mem_singleton_self a)
    have hk : getConsumedResourceKind tgt t = a := by
      unfold getConsumedResourceKind
      rw [h]
    refine ⟨by simp [hk, ha.1], ?_, by simp [hk, ha.2], h ▸ hN, h ▸ hM⟩
    intro k
    rw [hk]
    constructor
    · intro hx
      obtain rfl : a = k := by simpa using hx
      exact ⟨rfl, ha.1, ha.2⟩
    · rintro ⟨rfl, _, _⟩
      rfl
  · have hk : getConsumedResourceKind tgt t = .Mixed := by
      unfold getConsumedResourceKind
      rw [h]
    refine ⟨by simp [hk], ?_, ?_, h ▸ hN, h ▸ hM⟩
    · intro k
      rw [hk]
      constructor
      · intro hx
        exact absurd hx (by simp)
      · rintro ⟨rfl, _, hkM⟩
        exact absurd rfl hkM
    · rw [hk]
      simp

/-- The "API-bindable" resource kinds: the register classes and
`binding`/`space` indices an application can pass to a graphics API, per the
discussion around `getBindingIndex` in `slang-reflection-part2.h`. -/
def isBindable : LayoutResourceKind → Bool
  | .D3D_ConstantBuffer => true
  | .D3D_ShaderResource => true
  | .D3D_SamplerState => true
  | .D3D_UnorderedAccess => true
  | .VK_Binding => true
  | .RegisterSpace => true
  | _ => false

/-- Modelled from the spec: `VarLayout::getBindingIndex()` — valid only when
the variable consumes exactly one resource kind and that kind is bindable;
otherwise it fails with an ambiguous-resource-kind error rather than
returning a defaulted index. -/
def VarLayout.getBindingIndex (tgt : Target) (v : VarLayout) :
    Except LayoutError Nat :=
  match getConsumedResourceKinds tgt v.tyl with
  | [k] =>
      if isBindable k then .ok (v.getOffset k)
      else .error .AmbiguousResourceKind
  | _ => .error .AmbiguousResourceKind

/-- Modelled from the spec: `VarLayout::getBindingSpace()` — same validity
condition as `getBindingIndex`, yielding the variable's register-space /
descriptor-set offset. -/
def VarLayout.getBindingSpace (tgt : Target) (v : VarLayout) :
    Except LayoutError Nat :=
  match getConsumedResourceKinds tgt v.tyl with
  | [k] =>
      if isBindable k then .ok (v.getOffset .RegisterSpace)
      else .error .AmbiguousResourceKind
  | _ => .error .AmbiguousResourceKind

/-- C7: `getBindingIndex`/`getBindingSpace` succeed exactly when the variable
consumes exactly one resource kind and that kind is bindable; in every other
case (zero kinds, several kinds, or a single non-bindable kind) they fail
with the `AmbiguousResourceKind` error instead of returning a defaulted
index. -/
theorem binding_index_single_bindable_kind (tgt : Target) (v : VarLayout) :
    ((v.getBindingIndex tgt).isOk = true ↔
      ∃ k, getConsumedResourceKinds tgt v.tyl = [k] ∧ isBindable k = true) ∧
    ((v.getBindingSpace tgt).isOk = true ↔
      ∃ k, getConsumedResourceKinds tgt v.tyl = [k] ∧ isBindable k = true) ∧
    (¬ (∃ k, getConsumedResourceKinds tgt v.tyl = [k] ∧ isBindable k = true) →
      v.getBindingIndex tgt = .error .AmbiguousResourceKind ∧
      v.getBindingSpace tgt = .error .AmbiguousResourceKind) := by
  rcases h : getConsumedResourceKinds tgt v.tyl with _ | ⟨a, _ | ⟨b, l⟩⟩
  · have e1 : v.getBindingIndex tgt = .error .AmbiguousResourceKind := by
      unfold VarLayout.getBindingIndex
      rw [h]
    have e2 : v.getBindingSpace tgt = .error .AmbiguousResourceKind := by
      unfold VarLayout.getBindingSpace
      rw [h]
    simp [e1, e2, Except.isOk, Except.toBool]
  · cases hb : isBindable a
    · have e1 : v.getBindingIndex tgt = .error .AmbiguousResourceKind := by
        unfold VarLayout.getBindingIndex
        rw [h]
        simp [hb]
      have e2 : v.getBindingSpace tgt = .error .AmbiguousResourceKind := by
        unfold VarLayout.getBindingSpace
        rw [h]
        simp [hb]
      simp [e1, e2, Except.isOk, Except.toBool, hb]
    · have e1 : v.getBindingIndex tgt = .ok (v.getOffset a) := by
        unfold VarLayout.getBindingIndex
        rw [h]
        simp [hb]
      have e2 : v.getBindingSpace tgt = .ok (v.getOffset .RegisterSpace) := by
        unfold VarLayout.getBindingSpace
        rw [h]
        simp [hb]
      refine ⟨?_, ?_, ?_⟩
      · constructor
        · intro _
          exact ⟨a, rfl, hb⟩
        · intro _
          rw [e1]
          rfl
      · constructor
        · intro _
          exact ⟨a, rfl, hb⟩
        · intro _
          rw [e2]
          rfl
      · intro hc
        exact absurd ⟨a, rfl, hb⟩ hc
  · have e1 : v.getBindingIndex tgt = .error .AmbiguousResourceKind := by
      unfold VarLayout.getBindingIndex
      rw [h]
    have e2 : v.getBindingSpace tgt = .error .AmbiguousResourceKind := by
      unfold VarLayout.getBindingSpace
      rw [h]
    simp [e1, e2, Except.isOk, Except.toBool]

/-- Witness for C7 at a concrete variable: a texture variable at `binding` 5
on Vulkan consumes exactly the one bindable kind `VK_Binding`, so
`getBindingIndex` succeeds. -/
theorem binding_index_single_bindable_kind_witness :
    (VarLayout.getBindingIndex .vulkan ⟨.texture2D, fun _ => 5⟩).isOk = true :=
  (binding_index_single_bindable_kind .vulkan ⟨.texture2D, fun _ => 5⟩).1.mpr
    ⟨.VK_Binding, by decide, by decide⟩

/-- Strip array wrappers: the "leaf" type represented by each binding of an
array-of-resources range, per the `BindingRangeInfo::leafTypeLayout` comment
in `slang-reflection-part3.h` (for `Texture2D[10]` the leaf type is
`Texture2D`). -/
def unwrapArray : Ty → Ty
  | .array e _ => unwrapArray e
  | t => t

/-- Total number of bindings in a (possibly nested-array) leaf: the
`bindingCount` of its range. -/
def leafBindingCount : Ty → Nat
  | .array e n => n * leafBindingCount e
  | _ => 1

/-- Whether a leaf's descriptors live in a descriptor set of their own rather
than in the enclosing type's primary set: true exactly for `ParameterBlock`
leaves (`slang-reflection-part3.h`: a parameter block maps to its own
descriptor set). -/
def isOwnSetLeaf (t : Ty) : Bool :=
  match unwrapArray t with
  | .parameterBlock _ => true
  | _ => false

/-- The GPU-API binding type of a leaf (`BindingType` in
`slang-reflection-part3.h`). -/
def bindingTypeOf : Ty → BindingType
  | .texture2D => .Texture
  | .samplerState => .Sampler
  | .constantBuffer _ => .ConstantBuffer
  | .parameterBlock _ => .ParameterBlock
  | .pushConstantBuffer _ => .PushConstant
  | .array e _ => bindingTypeOf e
  | _ => .Unknown

/-- The payload type of a parameter group. -/
def groupElement : Ty → Ty
  | .constantBuffer e => e
  | .parameterBlock e => e
  | .pushConstantBuffer e => e
  | t => t

mutual
/-- The leaf fields of a type, each paired with its access path (the chain of
field indices leading to it).  A non-`struct` type is itself a leaf; `struct`
fields are flattened recursively; arrays are leaves (an array contributes a
single binding range regardless of its element count, per
`slang-reflection-part3.h`). -/
def leavesWP : Ty → List (List Nat × Ty)
  | .structT fs => fieldsLeaves fs 0
  | t => [([], t)]

/-- Leaves of a field sequence, the field at position `i` contributing paths
that start with `i`. -/
def fieldsLeaves : Fields → Nat → List (List Nat × Ty)
  | .nil, _ => []
  | .cons _ t rest, i =>
      (leavesWP t).map (fun pl => (i :: pl.1, pl.2)) ++ fieldsLeaves rest (i + 1)
end

/-- Whether a leaf consumes something other than ordinary bytes: its consumed
resource kinds are non-empty and not `{Bytes}` alone.  Such leaves are
exactly the ones that produce binding ranges. -/
def isResourceLeaf (tgt : Target) (t : Ty) : Bool :=
  decide (¬(getConsumedResourceKinds tgt t = [] ∨
            getConsumedResourceKinds tgt t = [.Bytes]))

/-- The resource-consuming leaves of a type, in declaration order. -/
def resourceLeaves (tgt : Target) (t : Ty) : List (List Nat × Ty) :=
  (leavesWP t).filter (fun pl => isResourceLeaf tgt pl.2)

/-- `DescriptorRangeInfo` from `slang-reflection-part3.h`. -/
structure DescriptorRangeInfo where
  descriptorCount : Nat
  indexOffset : Nat
  bindingType : BindingType
deriving DecidableEq, Repr

/-- `DescriptorSetInfo` from `slang-reflection-part3.h`. -/
structure DescriptorSetInfo where
  descriptorRanges : List DescriptorRangeInfo
  spaceOffset : Nat
deriving DecidableEq, Repr

/-- `BindingRangeInfo` from `slang-reflection-part3.h`; the leaf variable is
identified by its access path. -/
structure BindingRangeInfo where
  descriptorSetIndex : Nat
  type : BindingType
  firstDescriptorRangeIndex : Nat
  descriptorRangeCount : Nat
  bindingCount : Nat
  leafTypeLayout : Ty
  leafVar : Option (List Nat)

/-- Modelled from the spec: the descriptor ranges of the type's primary
descriptor set — one range per resource-consuming leaf whose descriptors
live in the enclosing set (parameter-block leaves contribute nothing here:
their descriptors live in their own set), with running binding indices. -/
def mkSet0Ranges (tgt : Target) : List (List Nat × Ty) → Nat → List DescriptorRangeInfo
  | [], _ => []
  | pl :: ls, idx =>
      if isOwnSetLeaf pl.2 then mkSet0Ranges tgt ls idx
      else
        ⟨leafBindingCount pl.2, idx, bindingTypeOf pl.2⟩ ::
          mkSet0Ranges tgt ls (idx + leafBindingCount pl.2)

/-- Modelled from the spec: one additional descriptor set per parameter-block
leaf, holding the ranges of the block's own element, with its `space` offset
relative to the enclosing type. -/
def subSetsOf (tgt : Target) : List (List Nat × Ty) → Nat → List DescriptorSetInfo
  | [], _ => []
  | pl :: ls, s =>
      if isOwnSetLeaf pl.2 then
        ⟨mkSet0Ranges tgt (resourceLeaves tgt (groupElement (unwrapArray pl.2))) 0, s⟩ ::
          subSetsOf tgt ls (s + 1)
      else subSetsOf tgt ls s

/-- `TypeLayout::getDescriptorSets()`: the primary set (index 0) followed by
one set per parameter-block leaf. -/
def getDescriptorSets (tgt : Target) (t : Ty) : List DescriptorSetInfo :=
  ⟨mkSet0Ranges tgt (resourceLeaves tgt t) 0, 0⟩ ::
    subSetsOf tgt (resourceLeaves tgt t) 1

/-- Modelled from the spec: the binding ranges of a type, one per
resource-consuming leaf, paired with the leaf's path.  A leaf whose
descriptors live in the primary set maps to exactly one descriptor range
there (at running index `d`); a parameter-block leaf maps to its own
descriptor set (running index `s`) and to *zero* descriptor ranges of the
enclosing type. -/
def mkBindingRangesWP (tgt : Target) :
    List (List Nat × Ty) → Nat → Nat → List (List Nat × BindingRangeInfo)
  | [], _, _ => []
  | pl :: ls, d, s =>
      if isOwnSetLeaf pl.2 then
        (pl.1, ⟨s, bindingTypeOf pl.2, 0, 0, leafBindingCount pl.2,
                unwrapArray pl.2, some pl.1⟩) ::
          mkBindingRangesWP tgt ls d (s + 1)
      else
        (pl.1, ⟨0, bindingTypeOf pl.2, d, 1, leafBindingCount pl.2,
                unwrapArray pl.2, some pl.1⟩) ::
          mkBindingRangesWP tgt ls (d + 1) s

/-- `TypeLayout::getBindingRanges()` from `slang-reflection-part3.h`. -/
def getBindingRanges (tgt : Target) (t : Ty) : List BindingRangeInfo :=
  (mkBindingRangesWP tgt (resourceLeaves tgt t) 0 1).map Prod.snd

/-- `StructTypeLayout::getBindingRangeOffsetForField(fieldIndex)`: the number
of binding ranges contributed by the fields preceding the given one
(`slang-reflection-part3.h`). -/
def getBindingRangeOffsetForField (tgt : Target) : Fields → Nat → Nat
  | .nil, _ => 0
  | .cons _ _ _, 0 => 0
  | .cons _ t rest, i + 1 =>
      (getBindingRanges tgt t).length + getBindingRangeOffsetForField tgt rest i

/-- The application shader-cursor state from `slang-reflection-part3.h`: the
type layout currently pointed at, the accumulated byte offset, the
accumulated binding-range index, and the array index within the current
binding range. -/
structure AppShaderCursor where
  typeBeingPointedAt : Ty
  byteOffset : Nat
  bindingRangeIndex : Nat
  arrayIndexInRange : Nat

/-- `AppShaderCursor::getField(int fieldIndex)`, assembled from the sketches
in `slang-reflection-part3.h` (byte offset advances by the field
`VarLayout`'s byte offset; binding-range index advances by
`getBindingRangeOffsetForField`; the cursor then points at the field's type
layout).  Modelled from the spec: the in-range array index resets to 0, a
non-aggregate current type fails with `NotAnAggregate`, and an
out-of-range index fails with `FieldIndexOutOfRange` (the source sketch
explicitly elides error handling). -/
def AppShaderCursor.getField (tgt : Target) (c : AppShaderCursor)
    (fieldIndex : Nat) : Except CursorError AppShaderCursor :=
  match c.typeBeingPointedAt with
  | .structT fs =>
      match fs.tyAt? fieldIndex, fieldOffset tgt fs .Bytes 0 fieldIndex with
      | some fty, some boff =>
          .ok ⟨fty, c.byteOffset + boff,
               c.bindingRangeIndex + getBindingRangeOffsetForField tgt fs fieldIndex,
               0⟩
      | _, _ => .error .FieldIndexOutOfRange
  | _ => .error .NotAnAggregate

/-- `AppShaderCursor::getElement(int elementIndex)`, assembled from the
sketches in `slang-reflection-part3.h` (byte offset advances by
`elementIndex` times the element stride; the in-range array index is first
multiplied by the array's element count and then the requested index is
added).  Modelled from the spec: a non-array current type fails with
`NotAnArray` and an out-of-range index with `ElementIndexOutOfRange`. -/
def AppShaderCursor.getElement (tgt : Target) (c : AppShaderCursor)
    (elementIndex : Nat) : Except CursorError AppShaderCursor :=
  match c.typeBeingPointedAt with
  | .array e n =>
      if elementIndex < n then
        .ok ⟨e, c.byteOffset + elementIndex * getStride tgt e .Bytes,
             c.bindingRangeIndex,
             c.arrayIndexInRange * n + elementIndex⟩
      else .error .ElementIndexOutOfRange
  | _ => .error .NotAnArray

/-- Helper: an in-range field index always resolves to a field type. -/
theorem tyAt?_isSome_of_lt (fs : Fields) (i : Nat) (h : i < fs.length) :
    ∃ t, fs.tyAt? i = some t := by
  match fs, i with
  | .nil, i => simp [Fields.length] at h
  | .cons _ t rest, 0 => exact ⟨t, rfl⟩
  | .cons _ t rest, i + 1 =>
      exact tyAt?_isSome_of_lt rest i (by simp [Fields.length] at h; omega)

/-- Helper: an out-of-range field index resolves to no field type. -/
theorem tyAt?_eq_none_of_le (fs : Fields) (i : Nat) (h : fs.length ≤ i) :
    fs.tyAt? i = none := by
  match fs, i with
  | .nil, i => rfl
  | .cons _ t rest, 0 => simp [Fields.length] at h
  | .cons _ t rest, i + 1 =>
      exact tyAt?_eq_none_of_le rest i (by simp [Fields.length] at h; omega)

/-- Helper: an in-range field index always has an offset, whatever the
running offset and resource kind. -/
theorem fieldOffset_isSome_of_lt (tgt : Target) (k : LayoutResourceKind)
    (fs : Fields) (off i : Nat) (h : i < fs.length) :
    ∃ v, fieldOffset tgt fs k off i = some v := by
  match fs, i with
  | .nil, i => simp [Fields.length] at h
  | .cons _ t rest, 0 => exact ⟨_, rfl⟩
  | .cons _ t rest, i + 1 =>
      exact fieldOffset_isSome_of_lt tgt k rest _ i (by simp [Fields.length] at h; omega)

/-- C4: the `intoField` cursor transition — on an aggregate with an in-range
field index it advances the byte offset by the field `VarLayout`'s byte
offset, advances the binding-range index by
`getBindingRangeOffsetForField`, resets the in-range array index to 0 and
points at the field's type layout; an out-of-range index fails with
`FieldIndexOutOfRange`, and a non-aggregate current type fails with
`NotAnAggregate`. -/
theorem intoField_transition (tgt : Target) (c : AppShaderCursor) (i : Nat) :
    (∀ fs, c.typeBeingPointedAt = .structT fs →
      (∀ _hi : i < fs.length,
        ∃ fty boff, fs.tyAt? i = some fty ∧
          fieldOffset tgt fs .Bytes 0 i = some boff ∧
          c.getField tgt i = .ok ⟨fty, c.byteOffset + boff,
            c.bindingRangeIndex + getBindingRangeOffsetForField tgt fs i, 0⟩) ∧
      (fs.length ≤ i → c.getField tgt i = .error .FieldIndexOutOfRange)) ∧
    ((∀ fs, c.typeBeingPointedAt ≠ .structT fs) →
      c.getField tgt i = .error .NotAnAggregate) := by
  obtain ⟨ty, b, br, ar⟩ := c
  constructor
  · intro fs hty
    simp only at hty
    subst hty
    constructor
    · intro hi
      obtain ⟨fty, hf⟩ := tyAt?_isSome_of_lt fs i hi
      obtain ⟨boff, hb⟩ := fieldOffset_isSome_of_lt tgt .Bytes fs 0 i hi
      refine ⟨fty, boff, hf, hb, ?_⟩
      simp [AppShaderCursor.getField, hf, hb]
    · intro hle
      have hf := tyAt?_eq_none_of_le fs i hle
      simp [AppShaderCursor.getField, hf]
  · intro hne
    cases ty with
    | structT fs => exact absurd rfl (hne fs)
    | float => rfl
    | float3 => rfl
    | texture2D => rfl
    | samplerState => rfl
    | array e n => rfl
    | constantBuffer e => rfl
    | parameterBlock e => rfl
    | pushConstantBuffer e => rfl

/-- Witness for C4 at a concrete cursor: descending into field 1 (`t`) of
`struct A { float x; Texture2D t; float y; }` from byte offset 100 and
binding-range index 5 with a stale in-range index 7 gives the expected
successful transition (and, concretely, the cursor
`⟨Texture2D, 104, 5, 0⟩`). -/
theorem intoField_transition_witness :
    ∃ fty boff, fieldsA.tyAt? 1 = some fty ∧
      fieldOffset .vulkan fieldsA .Bytes 0 1 = some boff ∧
      AppShaderCursor.getField .vulkan ⟨.structT fieldsA, 100, 5, 7⟩ 1 =
        .ok ⟨fty, 100 + boff,
          5 + getBindingRangeOffsetForField .vulkan fieldsA 1, 0⟩ :=
  ((intoField_transition .vulkan ⟨.structT fieldsA, 100, 5, 7⟩ 1).1 fieldsA rfl).1
    (by decide)

/-- C3: the `intoElement` cursor transition combines the in-range array index
multiplicatively — each step replaces the accumulated index `i` by
`i * elementCount + index` — and consequently descending `[2]` then `[1]`
into a nested `Texture2D[3][4]` yields exactly the same cursor (with flat
in-range index `2*4+1 = 9`) as descending into a flat `Texture2D[12]` at
position 9. -/
theorem intoElement_multiplicative_linearization :
    (∀ (tgt : Target) (c : AppShaderCursor) (e : Ty) (n i : Nat),
      c.typeBeingPointedAt = .array e n → i < n →
      c.getElement tgt i = .ok ⟨e, c.byteOffset + i * getStride tgt e .Bytes,
        c.bindingRangeIndex, c.arrayIndexInRange * n + i⟩) ∧
    (AppShaderCursor.getElement .vulkan ⟨.array (.array .texture2D 4) 3, 0, 0, 0⟩ 2).bind
        (fun c => c.getElement .vulkan 1) =
      AppShaderCursor.getElement .vulkan ⟨.array .texture2D 12, 0, 0, 0⟩ 9 ∧
    (AppShaderCursor.getElement .vulkan ⟨.array .texture2D 12, 0, 0, 0⟩ 9).map
        (fun c => c.arrayIndexInRange) = .ok 9 := by
  refine ⟨?_, rfl, rfl⟩
  intro tgt c e n i hty hi
  obtain ⟨ty, b, br, ar⟩ := c
  simp only at hty
  subst hty
  simp [AppShaderCursor.getElement, hi]

/-- Witness for C3 at a concrete cursor: stepping into element 2 of the outer
array of a `Texture2D[3][4]` from the initial cursor succeeds via the
multiplicative rule. -/
theorem intoElement_multiplicative_linearization_witness :
    AppShaderCursor.getElement .vulkan ⟨.array (.array .texture2D 4) 3, 0, 0, 0⟩ 2 =
      .ok ⟨.array .texture2D 4,
        0 + 2 * getStride .vulkan (.array .texture2D 4) .Bytes, 0, 0 * 3 + 2⟩ :=
  intoElement_multiplicative_linearization.1 .vulkan
    ⟨.array (.array .texture2D 4) 3, 0, 0, 0⟩ (.array .texture2D 4) 3 2 rfl
    (by decide)

mutual
/-- Helper: the access paths of a type's leaves are pairwise distinct. -/
theorem leavesWP_paths_nodup (t : Ty) : ((leavesWP t).map Prod.fst).Nodup := by
  match t with
  | .structT fs => exact (fieldsLeaves_paths fs 0).1
  | .float => simp [leavesWP]
  | .float3 => simp [leavesWP]
  | .texture2D => simp [leavesWP]
  | .samplerState => simp [leavesWP]
  | .array e n => simp [leavesWP]
  | .constantBuffer e => simp [leavesWP]
  | .parameterBlock e => simp [leavesWP]
  | .pushConstantBuffer e => simp [leavesWP]

/-- Helper: the leaf paths of a field sequence starting at index `i` are
pairwise distinct, and each starts with a field index of at least `i`. -/
theorem fieldsLeaves_paths (fs : Fields) (i : Nat) :
    ((fieldsLeaves fs i).map Prod.fst).Nodup ∧
    ∀ p ∈ (fieldsLeaves fs i).map Prod.fst, ∃ j q, p = j :: q ∧ i ≤ j := by
  match fs with
  | .nil => simp [fieldsLeaves]
  | .cons name t rest =>
    have ht := leavesWP_paths_nodup t
    have hr := fieldsLeaves_paths rest (i + 1)
    have hsplit : (fieldsLeaves (.cons name t rest) i).map Prod.fst =
        ((leavesWP t).map Prod.fst).map (fun p => i :: p) ++
          (fieldsLeaves rest (i + 1)).map Prod.fst := by
      simp [fieldsLeaves, Function.comp]
    constructor
    · rw [hsplit]
      refine List.Nodup.append ?_ hr.1 ?_
      · exact ht.map (fun a b h => by injection h)
      · intro p hp1 hp2
        obtain ⟨q, _, rfl⟩ := List.mem_map.mp hp1
        obtain ⟨j, q', hjq, hij⟩ := hr.2 _ hp2
        have : i = j := by
          injection hjq
        omega
    · intro p hp
      rw [hsplit] at hp
      rcases List.mem_append.mp hp with hp1 | hp2
      · obtain ⟨q, _, rfl⟩ := List.mem_map.mp hp1
        exact ⟨i, q, rfl, Nat.le_refl i⟩
      · obtain ⟨j, q, hjq, hij⟩ := hr.2 _ hp2
        exact ⟨j, q, hjq, by omega⟩
end

/-- Helper: `mkBindingRangesWP` preserves the leaf paths, in order. -/
theorem mkBindingRangesWP_map_fst (tgt : Target) (ls : List (List Nat × Ty))
    (d s : Nat) :
    (mkBindingRangesWP tgt ls d s).map Prod.fst = ls.map Prod.fst := by
  induction ls generalizing d s with
  | nil => rfl
  | cons pl ls ih =>
    by_cases h : isOwnSetLeaf pl.2 = true
    · simp [mkBindingRangesWP, h, ih]
    · simp only [Bool.not_eq_true] at h
      simp [mkBindingRangesWP, h, ih]

/-- Helper: in a list of pairs with pairwise-distinct first components, the
first component determines the second. -/
theorem snd_eq_of_fst_nodup {α β : Type} (l : List (α × β))
    (hn : (l.map Prod.fst).Nodup) (a : α) (b1 b2 : β)
    (h1 : (a, b1) ∈ l) (h2 : (a, b2) ∈ l) : b1 = b2 := by
  induction l with
  | nil => cases h1
  | cons hd tl ih =>
    simp only [List.map_cons, List.nodup_cons] at hn
    rcases List.mem_cons.mp h1 with he1 | ht1
    · rcases List.mem_cons.mp h2 with he2 | ht2
      · rw [← he1] at he2
        exact (Prod.mk.injEq _ _ _ _ |>.mp he2).2.symm
      · exfalso
        apply hn.1
        refine List.mem_map.mpr ⟨(a, b2), ht2, ?_⟩
        rw [← he1]
    · rcases List.mem_cons.mp h2 with he2 | ht2
      · exfalso
        apply hn.1
        refine List.mem_map.mpr ⟨(a, b1), ht1, ?_⟩
        rw [← he2]
      · exact ih hn.2 ht1 ht2

/-- Helper: in a duplicate-free list, a member is counted exactly once. -/
theorem countP_eq_one_of_nodup_mem {a : Type} [DecidableEq a] (l : List a)
    (hn : l.Nodup) (x : a) (h : x ∈ l) :
    l.countP (fun y => decide (y = x)) = 1 := by
  induction l with
  | nil => cases h
  | cons hd tl ih =>
    rw [List.nodup_cons] at hn
    rcases List.mem_cons.mp h with rfl | htl
    · rw [List.countP_cons_of_pos _ _ (by simp)]
      have h0 : tl.countP (fun y => decide (y = x)) = 0 := by
        refine List.countP_eq_zero.mpr ?_
        intro y hy
        simp only [decide_eq_true_eq]
        rintro rfl
        exact hn.1 hy
      rw [h0]
    · rw [List.countP_cons_of_neg]
      · exact ih hn.2 htl
      · simp only [decide_eq_true_eq]
        rintro rfl
        exact hn.1 htl

/-- C5: the binding ranges of a type partition its non-ordinary-data leaf
surface — the ranges are in path-preserving bijection with the
resource-consuming leaves, every leaf whose consumed kinds are non-empty and
not `{Bytes}` alone is covered by exactly one binding range, and every leaf
that consumes nothing or only bytes is covered by none. -/
theorem binding_ranges_partition (tgt : Target) (t : Ty) :
    getBindingRanges tgt t =
      (mkBindingRangesWP tgt (resourceLeaves tgt t) 0 1).map Prod.snd ∧
    ∀ p l, (p, l) ∈ leavesWP t →
      (isResourceLeaf tgt l = true →
        ((mkBindingRangesWP tgt (resourceLeaves tgt t) 0 1).map Prod.fst).countP
          (fun q => decide (q = p)) = 1) ∧
      (isResourceLeaf tgt l = false →
        ((mkBindingRangesWP tgt (resourceLeaves tgt t) 0 1).map Prod.fst).countP
          (fun q => decide (q = p)) = 0) := by
  have hnodup := leavesWP_paths_nodup t
  have hfst := mkBindingRangesWP_map_fst tgt (resourceLeaves tgt t) 0 1
  have hsub : ((resourceLeaves tgt t).map Prod.fst).Nodup := by
    refine List.Nodup.sublist ?_ hnodup
    exact List.Sublist.map Prod.fst (List.filter_sublist _)
  refine ⟨rfl, ?_⟩
  intro p l hmem
  rw [hfst]
  constructor
  · intro hres
    have hmemf : (p, l) ∈ resourceLeaves tgt t :=
      List.mem_filter.mpr ⟨hmem, hres⟩
    exact countP_eq_one_of_nodup_mem _ hsub p
      (List.mem_map.mpr ⟨(p, l), hmemf, rfl⟩)
  · intro hres
    refine List.countP_eq_zero.mpr ?_
    intro q hq
    simp only [decide_eq_true_eq]
    rintro rfl
    obtain ⟨⟨q2, l2⟩, hmem2, hq2⟩ := List.mem_map.mp hq
    simp only at hq2
    have hmem3 := List.mem_filter.mp hmem2
    have hl : l2 = l :=
      snd_eq_of_fst_nodup (leavesWP t) hnodup q l2 l (hq2 ▸ hmem3.1) hmem
    have hpred := hmem3.2
    rw [hl, hres] at hpred
    exact Bool.false_ne_true hpred

/-- Witness for C5 at the example `struct A { float x; Texture2D t; float y; }`
on Vulkan: the texture leaf at path `[1]` is covered by exactly one binding
range, while the ordinary float leaf at path `[0]` is covered by none. -/
theorem binding_ranges_partition_witness :
    ((mkBindingRangesWP .vulkan (resourceLeaves .vulkan tyA) 0 1).map Prod.fst).countP
      (fun q => decide (q = [1])) = 1 ∧
    ((mkBindingRangesWP .vulkan (resourceLeaves .vulkan tyA) 0 1).map Prod.fst).countP
      (fun q => decide (q = [0])) = 0 :=
  ⟨((binding_ranges_partition .vulkan tyA).2 [1] .texture2D
      (by simp [tyA, fieldsA, leavesWP, fieldsLeaves])).1 (by decide),
   ((binding_ranges_partition .vulkan tyA).2 [0] .float
      (by simp [tyA, fieldsA, leavesWP, fieldsLeaves])).2 (by decide)⟩

/-- Helper: the primary descriptor set has one range per leaf whose
descriptors live in it. -/
theorem mkSet0Ranges_length (tgt : Target) (ls : List (List Nat × Ty)) (idx : Nat) :
    (mkSet0Ranges tgt ls idx).length = ls.countP (fun pl => !isOwnSetLeaf pl.2) := by
  induction ls generalizing idx with
  | nil => rfl
  | cons pl ls ih =>
    by_cases h : isOwnSetLeaf pl.2 = true
    · simp [mkSet0Ranges, h, ih, List.countP_cons]
    · simp only [Bool.not_eq_true] at h
      simp [mkSet0Ranges, h, ih, List.countP_cons]

/-- Helper: there is one sub-set per own-set (parameter-block) leaf. -/
theorem subSetsOf_length (tgt : Target) (ls : List (List Nat × Ty)) (s : Nat) :
    (subSetsOf tgt ls s).length = ls.countP (fun pl => isOwnSetLeaf pl.2) := by
  induction ls generalizing s with
  | nil => rfl
  | cons pl ls ih =>
    by_cases h : isOwnSetLeaf pl.2 = true
    · simp [subSetsOf, h, ih, List.countP_cons]
    · simp only [Bool.not_eq_true] at h
      simp [subSetsOf, h, ih, List.countP_cons]

/-- Helper: structural invariant of the binding ranges produced with running
counters `d` (next primary-set descriptor-range index) and `s` (next own
descriptor-set index): an own-set range has zero descriptor ranges and a set
index within the sub-set window, while a primary-set range sits at set index
0 with its descriptor-range window inside the primary set's ranges. -/
theorem mkBindingRangesWP_inv (tgt : Target) (ls : List (List Nat × Ty))
    (d s : Nat) :
    ∀ pr ∈ mkBindingRangesWP tgt ls d s,
      (pr.2.descriptorRangeCount = 0 ∧ s ≤ pr.2.descriptorSetIndex ∧
        pr.2.descriptorSetIndex < s + ls.countP (fun pl => isOwnSetLeaf pl.2)) ∨
      (pr.2.descriptorSetIndex = 0 ∧
        pr.2.firstDescriptorRangeIndex + pr.2.descriptorRangeCount ≤
          d + ls.countP (fun pl => !isOwnSetLeaf pl.2)) := by
  induction ls generalizing d s with
  | nil =>
    intro pr hpr
    cases hpr
  | cons pl ls ih =>
    intro pr hpr
    by_cases h : isOwnSetLeaf pl.2 = true
    · rw [show mkBindingRangesWP tgt (pl :: ls) d s =
          (pl.1, ⟨s, bindingTypeOf pl.2, 0, 0, leafBindingCount pl.2,
            unwrapArray pl.2, some pl.1⟩) ::
            mkBindingRangesWP tgt ls d (s + 1) by
          simp [mkBindingRangesWP, h]] at hpr
      have hcount : (pl :: ls).countP (fun pl => isOwnSetLeaf pl.2) =
          ls.countP (fun pl => isOwnSetLeaf pl.2) + 1 := by
        simp [List.countP_cons, h]
      have hcount2 : (pl :: ls).countP (fun pl => !isOwnSetLeaf pl.2) =
          ls.countP (fun pl => !isOwnSetLeaf pl.2) := by
        simp [List.countP_cons, h]
      rcases List.mem_cons.mp hpr with rfl | htl
      · left
        refine ⟨rfl, Nat.le_refl s, ?_⟩
        rw [hcount]
        dsimp only
        omega
      · rcases ih d (s + 1) pr htl with ⟨hc, hle, hlt⟩ | ⟨hidx, hbound⟩
        · left
          refine ⟨hc, by omega, ?_⟩
          rw [hcount]
          omega
        · right
          refine ⟨hidx, ?_⟩
          rw [hcount2]
          exact hbound
    · simp only [Bool.not_eq_true] at h
      rw [show mkBindingRangesWP tgt (pl :: ls) d s =
          (pl.1, ⟨0, bindingTypeOf pl.2, d, 1, leafBindingCount pl.2,
            unwrapArray pl.2, some pl.1⟩) ::
            mkBindingRangesWP tgt ls (d + 1) s by
          simp [mkBindingRangesWP, h]] at hpr
      have hcount : (pl :: ls).countP (fun pl => isOwnSetLeaf pl.2) =
          ls.countP (fun pl => isOwnSetLeaf pl.2) := by
        simp [List.countP_cons, h]
      have hcount2 : (pl :: ls).countP (fun pl => !isOwnSetLeaf pl.2) =
          ls.countP (fun pl => !isOwnSetLeaf pl.2) + 1 := by
        simp [List.countP_cons, h]
      rcases List.mem_cons.mp hpr with rfl | htl
      · right
        refine ⟨rfl, ?_⟩
        rw [hcount2]
        dsimp only
        omega
      · rcases ih (d + 1) s pr htl with ⟨hc, hle, hlt⟩ | ⟨hidx, hbound⟩
        · left
          refine ⟨hc, hle, ?_⟩
          rw [hcount]
          omega
        · right
          refine ⟨hidx, ?_⟩
          rw [hcount2]
          omega

/-- A struct with a nested `ParameterBlock` field followed by a texture:
`struct { ParameterBlock<struct { Texture2D t; }> pb; Texture2D tex; }`. -/
def exSub : Ty :=
  .structT (.cons "pb" (.parameterBlock (.structT (.cons "t" .texture2D .nil)))
    (.cons "tex" .texture2D .nil))

/-- C9: a binding range may map to *zero* descriptor ranges (the
parameter-block range of the concrete example does), and whenever its
descriptor-range count is positive, the window
`[firstDescriptorRangeIndex, firstDescriptorRangeIndex + descriptorRangeCount)`
consists of valid indices into the descriptor-range sequence of the
descriptor set named by its `descriptorSetIndex`. -/
theorem binding_range_descriptor_window_valid (tgt : Target) (t : Ty) :
    (∀ r ∈ getBindingRanges tgt t,
      ∃ dset, (getDescriptorSets tgt t)[r.descriptorSetIndex]? = some dset ∧
        (0 < r.descriptorRangeCount →
          r.firstDescriptorRangeIndex + r.descriptorRangeCount ≤
            dset.descriptorRanges.length)) ∧
    (getBindingRanges .vulkan exSub).map
      (fun r => r.descriptorRangeCount) = [0, 1] := by
  refine ⟨?_, rfl⟩
  intro r hr
  obtain ⟨pr, hpr, rfl⟩ := List.mem_map.mp hr
  rcases mkBindingRangesWP_inv tgt (resourceLeaves tgt t) 0 1 pr hpr with
    ⟨hc, hle, hlt⟩ | ⟨hidx, hbound⟩
  · have hlen : (getDescriptorSets tgt t).length =
        1 + (resourceLeaves tgt t).countP (fun pl => isOwnSetLeaf pl.2) := by
      simp [getDescriptorSets, subSetsOf_length]
      omega
    have hlt2 : pr.2.descriptorSetIndex < (getDescriptorSets tgt t).length := by
      omega
    refine ⟨_, List.getElem?_eq_getElem hlt2, ?_⟩
    intro h0
    rw [hc] at h0
    exact absurd h0 (by omega)
  · have h0 : (getDescriptorSets tgt t)[pr.2.descriptorSetIndex]? =
        some ⟨mkSet0Ranges tgt (resourceLeaves tgt t) 0, 0⟩ := by
      rw [hidx]
      simp [getDescriptorSets]
    refine ⟨_, h0, ?_⟩
    intro _
    simpa [mkSet0Ranges_length] using hbound

/-- Witness for C9 at the texture binding range of the concrete example
type: the descriptor set it names exists and its one-descriptor-range window
fits inside that set. -/
theorem binding_range_descriptor_window_valid_witness :
    ∃ dset, (getDescriptorSets .vulkan exSub)[
        (BindingRangeInfo.mk 0 .Texture 0 1 1 .texture2D (some [1])).descriptorSetIndex]? =
        some dset ∧
      (0 < (BindingRangeInfo.mk 0 .Texture 0 1 1 .texture2D
          (some [1])).descriptorRangeCount →
        (BindingRangeInfo.mk 0 .Texture 0 1 1 .texture2D
            (some [1])).firstDescriptorRangeIndex +
          (BindingRangeInfo.mk 0 .Texture 0 1 1 .texture2D
            (some [1])).descriptorRangeCount ≤ dset.descriptorRanges.length) :=
  (binding_range_descriptor_window_valid .vulkan exSub).1
    ⟨0, .Texture, 0, 1, 1, .texture2D, some [1]⟩
    (List.Mem.tail _ (List.Mem.head _))

/-- Concatenation of field sequences. -/
def Fields.append : Fields → Fields → Fields
  | .nil, gs => gs
  | .cons n t rest, gs => .cons n t (Fields.append rest gs)

/-- Modelled from the spec: the per-field variable layouts of a fictitious
scope struct, with running per-kind offsets. -/
def fieldVarLayouts (tgt : Target) : Fields → (LayoutResourceKind → Nat) → List VarLayout
  | .nil, _ => []
  | .cons _ t rest, off =>
      ⟨t, fun k => if k = .Bytes then roundUp (off .Bytes) (alignB t) else off k⟩ ::
        fieldVarLayouts tgt rest
          (fun k => if k = .Bytes then roundUp (off .Bytes) (alignB t) + tySizeB t
                    else off k + getSize tgt t k)

/-- The binding assigned to the implicitly allocated default constant buffer
of a parameter scope. -/
def defaultGlobalConstantBufferBinding : Nat := 0

/-- Modelled from the spec: the `VarLayout` describing a whole parameter
scope (`slang-reflection-part1.h`): a variable of a fictitious `struct` type
with one field per parameter when the scope needs no ordinary byte storage,
and otherwise a `ConstantBuffer` of that struct — the implicitly allocated
default constant buffer — whose binding information the `VarLayout`
carries. -/
def scopeVarLayout (tgt : Target) (fs : Fields) : VarLayout :=
  if tySizeB (.structT fs) = 0 then ⟨.structT fs, fun _ => 0⟩
  else ⟨.constantBuffer (.structT fs),
        fun k => if k = cbKind tgt then defaultGlobalConstantBufferBinding else 0⟩

/-- `ProgramLayout` from `slang-reflection-part1.h`: it *is* a `VarLayout`
(the inheritance `class ProgramLayout : VarLayout` is modelled by the
`toVarLayout` component) and also exposes the global parameter layouts. -/
structure ProgramLayout where
  params : List VarLayout
  toVarLayout : VarLayout

/-- `EntryPointLayout` from `slang-reflection-part1.h`: likewise a
`VarLayout`, exposing the explicit entry-point parameters and the result. -/
structure EntryPointLayout where
  params : List VarLayout
  resultTy : Ty
  toVarLayout : VarLayout

/-- Modelled from the spec: the program-level layout of a linked program
whose global scope declares the given parameters. -/
def mkProgramLayout (tgt : Target) (globals : Fields) : ProgramLayout :=
  ⟨fieldVarLayouts tgt globals (fun _ => 0), scopeVarLayout tgt globals⟩

/-- Modelled from the spec: the layout of an entry point with the given
explicit parameters and result type; its fictitious scope struct has one
field per parameter plus an additional field for the entry point's result. -/
def mkEntryPointLayout (tgt : Target) (params : Fields) (resultTy : Ty) :
    EntryPointLayout :=
  ⟨fieldVarLayouts tgt params (fun _ => 0), resultTy,
   scopeVarLayout tgt (params.append (.cons "result" resultTy .nil))⟩

/-- C8: every `ProgramLayout` (and every `EntryPointLayout`) is itself a
`VarLayout`, and the variable it describes has as its type either the
fictitious `struct` whose fields are the scope's parameters, or a
`ConstantBuffer` of that fictitious `struct`; the `ConstantBuffer` case
arises exactly when the scope needs ordinary byte storage, and then the
`VarLayout` carries the binding of the implicitly allocated default constant
buffer. -/
theorem program_layout_is_var_layout (tgt : Target)
    (globals entryParams : Fields) (resultTy : Ty) :
    ((mkProgramLayout tgt globals).toVarLayout.tyl = .structT globals ∧
        tySizeB (.structT globals) = 0 ∨
      (mkProgramLayout tgt globals).toVarLayout.tyl =
          .constantBuffer (.structT globals) ∧
        0 < tySizeB (.structT globals) ∧
        (mkProgramLayout tgt globals).toVarLayout.getOffset (cbKind tgt) =
          defaultGlobalConstantBufferBinding) ∧
    ((mkEntryPointLayout tgt entryParams resultTy).toVarLayout.tyl =
          .structT (entryParams.append (.cons "result" resultTy .nil)) ∧
        tySizeB (.structT (entryParams.append (.cons "result" resultTy .nil))) = 0 ∨
      (mkEntryPointLayout tgt entryParams resultTy).toVarLayout.tyl =
          .constantBuffer (.structT (entryParams.append (.cons "result" resultTy .nil))) ∧
        0 < tySizeB (.structT (entryParams.append (.cons "result" resultTy .nil))) ∧
        (mkEntryPointLayout tgt entryParams resultTy).toVarLayout.getOffset (cbKind tgt) =
          defaultGlobalConstantBufferBinding) := by
  constructor
  · by_cases h : tySizeB (.structT globals) = 0
    · left
      simp [mkProgramLayout, scopeVarLayout, h]
    · right
      refine ⟨by simp [mkProgramLayout, scopeVarLayout, h], Nat.pos_of_ne_zero h, ?_⟩
      simp [mkProgramLayout, scopeVarLayout, h, VarLayout.getOffset]
  · by_cases h : tySizeB (.structT (entryParams.append (.cons "result" resultTy .nil))) = 0
    · left
      simp [mkEntryPointLayout, scopeVarLayout, h]
    · right
      refine ⟨by simp [mkEntryPointLayout, scopeVarLayout, h],
        Nat.pos_of_ne_zero h, ?_⟩
      simp [mkEntryPointLayout, scopeVarLayout, h, VarLayout.getOffset]

/-- Witness for C8 at a concrete program: a global scope with ordinary data
(`struct A`'s fields) is described as a `ConstantBuffer` of the fictitious
global struct or as the bare struct. -/
theorem program_layout_is_var_layout_witness :
    (mkProgramLayout .vulkan fieldsA).toVarLayout.tyl = .structT fieldsA ∧
        tySizeB (.structT fieldsA) = 0 ∨
      (mkProgramLayout .vulkan fieldsA).toVarLayout.tyl =
          .constantBuffer (.structT fieldsA) ∧
        0 < tySizeB (.structT fieldsA) ∧
        (mkProgramLayout .vulkan fieldsA).toVarLayout.getOffset (cbKind .vulkan) =
          defaultGlobalConstantBufferBinding :=
  (program_layout_is_var_layout .vulkan fieldsA .nil .float).1

/-- The per-target resource limits mentioned in `slang-reflection-part2.h`:
Vulkan permits a single push-constant buffer per program, D3D11 permits 256
`t` registers.  The layout subsystem reflects these nowhere — this table
exists only to state that fact. -/
def targetResourceLimit : Target → LayoutResourceKind → Option Nat
  | .vulkan, .VK_PushConstantBuffer => some 1
  | .d3d11, .D3D_ShaderResource => some 256
  | _, _ => none

/-- A scope with `n` push-constant-buffer parameters. -/
def pcFields : Nat → Fields
  | 0 => .nil
  | n + 1 =>
      .cons "pc" (.pushConstantBuffer (.structT (.cons "x" .float .nil)))
        (pcFields n)

/-- Helper: `n` push-constant parameters consume `n` push-constant units. -/
theorem pcFields_size (n : Nat) :
    fieldsSizeK .vulkan (pcFields n) .VK_PushConstantBuffer = n := by
  induction n with
  | zero => rfl
  | succ n ih =>
    simp [pcFields, fieldsSizeK, getSize, ih]
    omega

/-- C10: layout accounting never enforces target-specific resource limits —
for every non-`Bytes` kind (including `VK_PushConstantBuffer`) a struct's
`getSize` is the same unrestricted per-field sum used for every other kind,
a program with `n` push-constant buffers is reported as consuming `n` units
for any `n`, and in particular a two-push-constant-buffer scope is reported
as consuming 2 units even though the target's own limit is 1; `getSize`
returns a plain count and has no error outcome. -/
theorem layout_accounting_ignores_target_limits :
    (∀ (tgt : Target) (fs : Fields) (k : LayoutResourceKind), k ≠ .Bytes →
      getSize tgt (.structT fs) k = fieldsSizeK tgt fs k) ∧
    (∀ n, getSize .vulkan (.structT (pcFields n)) .VK_PushConstantBuffer = n) ∧
    targetResourceLimit .vulkan .VK_PushConstantBuffer = some 1 ∧
    getSize .vulkan (.structT (pcFields 2)) .VK_PushConstantBuffer = 2 := by
  refine ⟨?_, ?_, rfl, by decide⟩
  · intro tgt fs k hk
    simp [getSize, hk]
  · intro n
    simp [getSize, pcFields_size]

/-- Witness for C10: the uniform-accounting clause applied at a concrete
kind and scope. -/
theorem layout_accounting_ignores_target_limits_witness :
    getSize .vulkan (.structT (pcFields 2)) .VK_PushConstantBuffer =
      fieldsSizeK .vulkan (pcFields 2) .VK_PushConstantBuffer :=
  layout_accounting_ignores_target_limits.1 .vulkan (pcFields 2)
    .VK_PushConstantBuffer (by decide)

/-- Witness for C1: the general non-additivity clause instantiated at the
example group bound at unit 10. -/
theorem parameterGroup_accumulation_nonadditive_witness :
    accumulateGroupOffset .vulkan (.constantBuffer tyA) 10 .VK_Binding 0 =
      some (10 + 1 + 0) :=
  ((parameterGroup_accumulation_nonadditive).2.2.2 tyA 10 0).1

/-- Witness for C6 at a concrete layout: the pseudo-kind `None` is not among
the consumed kinds of a `float` layout on Vulkan. -/
theorem consumed_kind_determined_witness :
    LayoutResourceKind.None ∉ getConsumedResourceKinds .vulkan .float :=
  (consumed_kind_determined_by_consumed_kinds .vulkan .float).2.2.2.1

end SlangReflection
